import Mathlib

/-!
Verification of the reconciliation core of `sync2html.py` (centos-sync-packages).

The file shallowly embeds the parts of `sync2html.py` that the verified
claims are about: the per-package reconciliation loop of `html_main`
(lines 550-621), the git-tag parser `_tags2pkgs` (lines 184-209), the
clone fallback `bpkg2git_tags` (lines 170-182), the batched signature
lookups `koji_archpkgs2sigs` / `koji_pkgs2archsigs` (lines 40-89), and
the `need_build` task-state refinement inside `_html_row` (lines 487-531).

The package type of the external `spkg` module (not part of the sources
given) is modelled from the specification: a name, an abstract key giving
the position of (epoch, version, release) in the Version Ordering, and a
structural-identity discriminator capturing identity beyond the ordering
(for example arch, or version strings that compare equal under the
ordering while being distinct strings), plus the signing flag of build
packages.  Structural equality compares all identity fields; ordering
compares the name and then the version key only, so two packages can be
order-equal yet structurally distinct, which is exactly the case the
code labels `error`.
-/

namespace Sync2Html

/-- Modelled from the spec: `spkg.Pkg` (module `spkg.py` is not among the
given sources).  `name` is the stable identity key; `vkey` abstracts the
position of (epoch, version, release) in the Version Ordering; `sid` is a
structural-identity discriminator (identity beyond the ordering, e.g.
arch); `signed` records whether non-empty signing data is attached (only
meaningful on build-tag packages, where `not bpkg.signed` in the code
tests for the empty value). -/
structure Pkg where
  name : String
  vkey : Nat
  sid : Nat
  signed : Bool
deriving DecidableEq, Repr

/-- Lexicographic order on character lists, by code point (the order
Python string comparison uses for the package names). -/
def listCharLt : List Char → List Char → Bool
  | [], [] => false
  | [], _ :: _ => true
  | _ :: _, [] => false
  | c :: cs, d :: ds =>
    if c.toNat < d.toNat then true
    else if d.toNat < c.toNat then false
    else listCharLt cs ds

/-- Lexicographic order on strings, by code point. -/
def strLt (a b : String) : Bool := listCharLt a.data b.data

/-- Modelled from the spec: `spkg.Pkg.__lt__`, the Version Ordering used
by `sorted` and the `<` / `>` comparisons: name first, then the version
key; the structural discriminator does not participate in the order. -/
def pkgLt (a b : Pkg) : Bool :=
  strLt a.name b.name || (a.name == b.name && a.vkey < b.vkey)

/-- Modelled from the spec: `spkg.Pkg.__eq__`, structural equality of the
identity fields (name, epoch, version, release, arch) -- here name, the
version key and the structural discriminator; signing data is an
attachment, not identity. -/
def pkgEq (a b : Pkg) : Bool :=
  a.name == b.name && a.vkey == b.vkey && a.sid == b.sid

/-- Modelled from the spec: `str(pkg)`, the NVR rendering used in the
row messages. -/
def pkgStr (p : Pkg) : String :=
  p.name ++ ("-") ++ toString p.vkey ++ (".") ++ toString p.sid

/-- Stable insertion of one package into an ascending list, under the
`pkgLt` order (auxiliary for the model of Python `sorted`). -/
def insertPkg (x : Pkg) : List Pkg → List Pkg
  | [] => [x]
  | y :: ys => if pkgLt x y then x :: y :: ys else y :: insertPkg x ys

/-- Model of Python `sorted` on package lists: a stable sort under
`pkgLt` (`sorted(cpkgs)` at line 550, `sorted(tpkgs)` at line 596). -/
def sortPkgs (l : List Pkg) : List Pkg :=
  l.foldr insertPkg []

/-- The aggregator dictionary `stats` of `html_main` (line 547): one
counter per status bucket, all starting at zero.  The `extra` bucket is
only touched by the dead compose-versus-tag path (constant-false guard,
line 623) and stays zero in the modelled pass. -/
structure Stats where
  sign : Nat
  done : Nat
  push : Nat
  build : Nat
  denied : Nat
  missing : Nat
  extra : Nat
  gitOld : Nat
  tagOld : Nat
  error : Nat
deriving DecidableEq, Repr

/-- The all-zero aggregator a pass starts from. -/
def stats0 : Stats := ⟨0, 0, 0, 0, 0, 0, 0, 0, 0, 0⟩

def incSign (s : Stats) : Stats := { s with sign := s.sign + 1 }

def incDone (s : Stats) : Stats := { s with done := s.done + 1 }

def incPush (s : Stats) : Stats := { s with push := s.push + 1 }

def incBuild (s : Stats) : Stats := { s with build := s.build + 1 }

def incDenied (s : Stats) : Stats := { s with denied := s.denied + 1 }

def incMissing (s : Stats) : Stats := { s with missing := s.missing + 1 }

def incGitOld (s : Stats) : Stats := { s with gitOld := s.gitOld + 1 }

def incTagOld (s : Stats) : Stats := { s with tagOld := s.tagOld + 1 }

def incError (s : Stats) : Stats := { s with error := s.error + 1 }

/-- The total of the aggregator over all status buckets. -/
def sumStats (s : Stats) : Nat :=
  s.sign + s.done + s.push + s.build + s.denied + s.missing + s.extra +
    s.gitOld + s.tagOld + s.error

/-- One emitted report row: the manifest package shown in the first
column, the status message, and the status tag `lc` handed to
`_html_row` (the CSS class / classification tag). -/
structure Row where
  pkg : Pkg
  status : String
  lc : String
deriving DecidableEq, Repr

/-- Row constructor, mirroring a `_html_row(status, lc=...)` call site. -/
def mkRow (p : Pkg) (status lc : String) : Row := ⟨p, status, lc⟩

/-- `bpkg2git_tags` (lines 170-182): clone the package repository and
read its tags; a `git.exc.GitCommandError` (modelled by `none` from the
fetch oracle) means the clone did not work, and yields the empty tag
list.  The oracle returns already-parsed packages: the string-level
parser `_tags2pkgs` is modelled separately below, and its composition
with the clone is abstracted here because `spkg.nvr2pkg` is not among
the given sources. -/
def bpkg2git_tags (fetch : String → Option (List Pkg)) (name : String) :
    List Pkg :=
  match fetch name with
  | some tags => tags
  | none => []

/-- The history-scan loop of `html_main` (lines 596-618), over the
descending-sorted parsed tag history.  Returns the rows it emits, the
updated aggregator, and the final `found` flag.  Mirrors the code: a
non-matching name is skipped; a strictly newer entry emits an `older`
row and keeps scanning; an equal entry emits `nobuild` (when the build
already matches, i.e. the never-built case where `bpkg` is `cpkg`) or
`need_build` and stops; an older entry emits `need_push` and stops; an
order-equal but structurally distinct entry emits an `error` row and
keeps scanning. -/
def scanLoop (cpkg bpkg : Pkg) : List Pkg → Stats → List Row × Stats × Bool
  | [], st => ([], st, false)
  | t :: rest, st =>
    if t.name != cpkg.name then
      scanLoop cpkg bpkg rest st
    else if pkgLt cpkg t then
      let r := scanLoop cpkg bpkg rest (incGitOld st)
      (mkRow cpkg (("OLDER than git: ") ++ pkgStr t) ("older") :: r.1,
        r.2.1, true)
    else if pkgEq cpkg t then
      if pkgEq cpkg bpkg then
        ([mkRow cpkg ("No BUILD") ("nobuild")], incBuild st, true)
      else
        ([mkRow cpkg (("BUILD needed, latest build: ") ++ pkgStr bpkg)
            ("need_build")], incBuild st, true)
    else if pkgLt t cpkg then
      ([mkRow cpkg (("PUSH needed, latest git: ") ++ pkgStr t)
          ("need_push")], incPush st, true)
    else
      let r := scanLoop cpkg bpkg rest (incError st)
      (mkRow cpkg
          (("Error: bpkg: ") ++ pkgStr bpkg ++ (" tpkg: ") ++ pkgStr t)
          ("error") :: r.1,
        r.2.1, true)

/-- The history-lookup block of `html_main` (lines 593-621): sort the
parsed tag packages, scan them newest first, and when no entry with the
package's name was found emit the `Missing from git` row and count it in
the push bucket. -/
def history_scan (cpkg bpkg : Pkg) (tpkgs : List Pkg) (st : Stats) :
    List Row × Stats :=
  let r := scanLoop cpkg bpkg (sortPkgs tpkgs).reverse st
  if r.2.2 then (r.1, r.2.1)
  else (r.1 ++ [mkRow cpkg ("Missing from git") ("missing")],
    incPush r.2.1)

/-- The per-package result of one iteration of the `html_main` loop:
the rows emitted for the package, the aggregator after the iteration,
and whether a source-control fetch (clone plus history scan) was
performed for it. -/
structure POut where
  rows : List Row
  st : Stats
  fetched : Bool
deriving DecidableEq, Repr

/-- One iteration of the reconciliation loop of `html_main`
(lines 550-621) for the manifest package `cpkg`: the denylist check,
the `pushed` lookup, the resolved / older / newer / error decision
sequence, and the fall-through into the history scan.  Note the exact
fall-through structure of the code: the never-built non-denied case
counts `missing` and continues into the scan with `bpkg := cpkg`; the
`cpkg > bpkg` non-denied case continues into the scan; and the `error`
case (order-equal but structurally distinct) emits its row and then
also falls into the scan, there being no `continue` on that branch. -/
def doPkg (deny : Pkg → Bool) (fetch : String → Option (List Pkg))
    (pushed : String → Option Pkg) (filter_pushed filter_signed : Bool)
    (st : Stats) (cpkg : Pkg) : POut :=
  let denied := deny cpkg
  match pushed cpkg.name with
  | none =>
    if denied then
      ⟨[mkRow cpkg ("denied") ("denied")], incDenied st, false⟩
    else
      let r := history_scan cpkg cpkg (bpkg2git_tags fetch cpkg.name)
        (incMissing st)
      ⟨r.1, r.2, true⟩
  | some bpkg =>
    if pkgEq cpkg bpkg then
      if !filter_signed && !bpkg.signed then
        ⟨[mkRow cpkg ("built not signed") ("need_signing")], incSign st,
          false⟩
      else if !filter_pushed then
        ⟨[mkRow cpkg ("built and signed") ("done")], incDone st, false⟩
      else
        ⟨[], st, false⟩
    else if pkgLt cpkg bpkg then
      ⟨[mkRow cpkg (("OLDER than build: ") ++ pkgStr bpkg) ("older")],
        incTagOld st, false⟩
    else if pkgLt bpkg cpkg then
      if denied then
        ⟨[mkRow cpkg (("autobuild denied: ") ++ pkgStr bpkg) ("denied")],
          incDenied st, false⟩
      else
        let r := history_scan cpkg bpkg (bpkg2git_tags fetch bpkg.name) st
        ⟨r.1, r.2, true⟩
    else
      let r := history_scan cpkg bpkg (bpkg2git_tags fetch bpkg.name)
        (incError st)
      ⟨mkRow cpkg (("ERROR: ") ++ pkgStr bpkg) ("error") :: r.1, r.2, true⟩

/-- The name-indexed build-tag lookup `pushed` of `html_main`
(lines 539-541): a dictionary built by inserting every build package
under its name, so the last package of a name wins. -/
def pushedOf (bpkgs : List Pkg) : String → Option Pkg :=
  fun n => (bpkgs.filter (fun b => b.name == n)).getLast?

/-- The reconciliation pass of `html_main` (lines 550-621): iterate the
sorted manifest, accumulating the emitted rows and the aggregator. -/
def html_main (deny : Pkg → Bool) (fetch : String → Option (List Pkg))
    (cpkgs bpkgs : List Pkg) (filter_pushed filter_signed : Bool) :
    List Row × Stats :=
  let pushed := pushedOf bpkgs
  (sortPkgs cpkgs).foldl
    (fun acc cpkg =>
      let o := doPkg deny fetch pushed filter_pushed filter_signed
        acc.2 cpkg
      (acc.1 ++ o.rows, o.st))
    ([], stats0)

/-- A parsed tag-history entry as produced by `_tags2pkgs`: the
remaining name-version-release text (handed to `spkg.nvr2pkg` in the
code, kept as the raw string here since `spkg` is not among the given
sources) and the stream flag. -/
structure TPkg where
  nvr : String
  stream : Bool
deriving DecidableEq, Repr

/-- `_tags2pkgs` (lines 184-209): keep only tags that start with the
fixed import prefix of the target major version, strip it, decode the
percent-encoded tilde, reject any remaining percent sign, then accept a
stream marker or a plain marker; everything else is skipped silently. -/
def tags2pkgs : List String → List TPkg
  | [] => []
  | tag :: rest =>
    let stag := tag
    if !stag.startsWith ("imports/c8") then tags2pkgs rest
    else
      let stag := stag.drop ("imports/c8").length
      let stag := stag.replace ("%7e") ("~")
      if stag.contains '%' then tags2pkgs rest
      else if stag.startsWith ("s/") then
        ⟨stag.drop ("s/").length, true⟩ :: tags2pkgs rest
      else if stag.startsWith ("/") then
        ⟨stag.drop ("/").length, false⟩ :: tags2pkgs rest
      else tags2pkgs rest

/-- The acceptance condition of claim C6, written from the spec's words:
the tag starts with the fixed import prefix; after stripping it and
decoding the percent-encoded tilde no percent sign remains; and the
remainder begins with the stream marker or the plain marker. -/
def tagAccepted (t : String) : Bool :=
  t.startsWith ("imports/c8") &&
    (let r := (t.drop ("imports/c8").length).replace ("%7e") ("~")
     !r.contains '%' && (r.startsWith ("s/") || r.startsWith ("/")))

/-- The single entry an accepted tag yields, written from the spec's
words: the post-marker text with the stream flag of the marker. -/
def acceptedTPkg (t : String) : TPkg :=
  let r := (t.drop ("imports/c8").length).replace ("%7e") ("~")
  if r.startsWith ("s/") then ⟨r.drop ("s/").length, true⟩
  else ⟨r.drop ("/").length, false⟩

/-- The task-state to sub-status mapping of `_html_row` (lines 495-511):
the elif chain refining a `need_build` classification by the build-task
state. -/
def task_state2lc (state : String) : String :=
  if state == ("NONE") then ("need_build")
  else if state == ("FREE") then ("need_build_free")
  else if state == ("OPEN") then ("need_build_open")
  else if state == ("CLOSED") then ("need_build_closed")
  else if state == ("CANCELED") then ("need_build_canceled")
  else if state == ("ASSIGNED") then ("need_build_assigned")
  else if state == ("FAILED") then ("need_build_failed")
  else ("need_build_unknown")

/-- Python `or` on strings: the first operand unless it is empty. -/
def pyOr (a b : String) : String := if a == ("") then b else a

/-- The status-tag computation of `_html_row` (lines 487-531): the note
is the build package's note, else the manifest package's, else empty;
when the incoming tag is `need_build` the build-task state is looked up
and mapped through `task_state2lc`, and when no note exists and the
package is auto-detected as a rebuild, a branch change or a module, an
automatic note is set and a still-plain `need_build` is reclassified as
`need_build_manual`.  Any other incoming tag is returned unchanged (no
task lookup happens for it). -/
def html_row_lc (state : String) (bnote cnote : String)
    (isRebuild isBranch isModule : Bool) (lc : String) : String :=
  let note := pyOr (pyOr bnote cnote) ("")
  if lc == ("need_build") then
    let lc := task_state2lc state
    if note == ("") then
      let note := if isRebuild then ("Rebuild") else note
      let note := if isBranch then ("Branch") else note
      let note := if isModule then ("Module") else note
      if !(note == ("")) then
        if lc == ("need_build") then ("need_build_manual") else lc
      else lc
    else lc
  else lc

/-- One RPM record as returned by the `listRPMs` remote call
(lines 79-86): the fields `html_main`'s adapter reads. -/
structure Rpm where
  nvr : String
  epoch : Option Nat
  arch : String
  id : Nat
deriving DecidableEq, Repr

/-- A build-tag package as consumed by `koji_pkgs2archsigs`: only its
remote build identifier is read (line 75). -/
structure BuildPkg where
  build_id : Nat
deriving DecidableEq, Repr

/-- The Python value of `pkg.signed`: the code stores either a string
(empty for unsigned, or the single key) or a list of keys. -/
inductive PySigned where
  | str : String → PySigned
  | list : List String → PySigned
deriving DecidableEq, Repr

/-- Python `len` on a `signed` value. -/
def pyLen : PySigned → Nat
  | .str s => s.length
  | .list l => l.length

/-- Python `signed[0]`: first element of a list, first character of a
string.  The empty cases are unreachable in the code (guarded by a
length-one test) and modelled totally. -/
def pyFirst : PySigned → PySigned
  | .str s => .str (s.take 1)
  | .list [] => .str ("")
  | .list (k :: _) => .str k

/-- An arch package as built by `koji_pkgs2archsigs` (lines 80-86). -/
structure ArchPkg where
  nvr : String
  epoch : Option Nat
  arch : String
  rpm_id : Nat
  build_id : Nat
  signed : PySigned
deriving DecidableEq, Repr

/-- The `signed` normalization of `koji_archpkgs2sigs` (lines 56-64)
applied to the non-empty signing keys collected by the loop: the empty
string when there are none, the key itself when there is exactly one,
the list otherwise. -/
def pySignedOfKeys (keys : List String) : PySigned :=
  let signed : PySigned := .list keys
  let signed := if pyLen signed == 0 then PySigned.str ("") else signed
  let signed := if pyLen signed == 1 then pyFirst signed else signed
  signed

/-- The consecutive slices `pkgs[i:i+n]` taken by the batch-splitting
loops (lines 43 and 69). -/
def chunkList (n : Nat) : List α → List (List α)
  | [] => []
  | x :: xs => (x :: xs.take (n - 1)) :: chunkList n (xs.drop (n - 1))
termination_by l => l.length
decreasing_by
  simp only [List.length_cons, List.length_drop]
  omega

/-- The hard batch ceiling `_koji_max_query` (line 40). -/
def koji_max_query : Nat := 2000

theorem chunkList_length_le {n : Nat} (hn : 1 ≤ n) :
    ∀ {l c : List α}, c ∈ chunkList n l → c.length ≤ n := by
  intro l
  induction l using chunkList.induct n with
  | case1 => intro c hc; simp [chunkList] at hc
  | case2 x xs ih =>
    intro c hc
    rw [chunkList] at hc
    rcases List.mem_cons.1 hc with h | h
    · subst h
      simp only [List.length_cons, List.length_take]
      omega
    · exact ih h

theorem chunkList_flatten {n : Nat} :
    ∀ l : List α, (chunkList n l).flatten = l := by
  intro l
  induction l using chunkList.induct n with
  | case1 => simp [chunkList]
  | case2 x xs ih =>
    rw [chunkList]
    simp only [List.flatten_cons, ih]
    simp [List.take_append_drop]

/-- `koji_archpkgs2sigs` (lines 41-64): when the package list exceeds
the ceiling, recurse on consecutive slices; otherwise issue one
multicall of `queryRPMSigs` requests (one per package, modelled by the
`sig` oracle from rpm id to returned signing keys) and normalize each
package's `signed`.  Returns the processed packages (the code mutates
them in place) together with the sizes of the multicall batches
issued. -/
def koji_archpkgs2sigs (sig : Nat → List String) (pkgs : List ArchPkg) :
    List ArchPkg × List Nat :=
  if pkgs.length > koji_max_query then
    let rs := (chunkList koji_max_query pkgs).attach.map
      (fun c => koji_archpkgs2sigs sig c.1)
    ((rs.map Prod.fst).flatten, (rs.map Prod.snd).flatten)
  else
    (pkgs.map (fun p =>
      { p with signed :=
          pySignedOfKeys ((sig p.rpm_id).filter (fun k => !(k == ("")))) }),
      [pkgs.length])
termination_by pkgs.length
decreasing_by
  have h1 : c.1.length ≤ koji_max_query :=
    chunkList_length_le (by simp [koji_max_query]) c.2
  omega

/-- `koji_pkgs2archsigs` (lines 66-89): when the package list exceeds
the ceiling, recurse on consecutive slices and concatenate; otherwise
issue one multicall of `listRPMs` requests (one per build package,
modelled by the `listRPMs` oracle from build id to RPM records), turn
every returned RPM into an arch package, and hand the whole expansion
to `koji_archpkgs2sigs`.  Returns the resulting packages together with
the sizes of all multicall batches issued. -/
def koji_pkgs2archsigs (listRPMs : Nat → List Rpm)
    (sig : Nat → List String) (pkgs : List BuildPkg) :
    List ArchPkg × List Nat :=
  if pkgs.length > koji_max_query then
    let rs := (chunkList koji_max_query pkgs).attach.map
      (fun c => koji_pkgs2archsigs listRPMs sig c.1)
    ((rs.map Prod.fst).flatten, (rs.map Prod.snd).flatten)
  else
    let ret := pkgs.flatMap (fun b =>
      (listRPMs b.build_id).map (fun r =>
        ⟨r.nvr, r.epoch, r.arch, r.id, b.build_id, PySigned.str ("")⟩))
    let r2 := koji_archpkgs2sigs sig ret
    (r2.1, pkgs.length :: r2.2)
termination_by pkgs.length
decreasing_by
  have h1 : c.1.length ≤ koji_max_query :=
    chunkList_length_le (by simp [koji_max_query]) c.2
  omega

theorem pkgEq_refl (a : Pkg) : pkgEq a a = true := by
  simp [pkgEq]

theorem listCharLt_irrefl : ∀ l : List Char, listCharLt l l = false := by
  intro l
  induction l with
  | nil => rfl
  | cons c cs ih => simp [listCharLt, ih]

theorem strLt_irrefl (s : String) : strLt s s = false :=
  listCharLt_irrefl s.data

theorem pkgEq_lt_false {a b : Pkg} (h : pkgEq a b = true) :
    pkgLt a b = false := by
  simp only [pkgEq, Bool.and_eq_true, beq_iff_eq] at h
  simp [pkgLt, h.1.1, h.1.2, strLt_irrefl]

theorem pkgLt_same_name_eq_false {b c : Pkg} (h : pkgLt b c = true)
    (hn : b.name = c.name) : pkgEq c b = false := by
  simp only [pkgLt, hn, strLt_irrefl, Bool.false_or, Bool.and_eq_true,
    beq_iff_eq, decide_eq_true_eq] at h
  simp only [pkgEq, Bool.and_eq_false_iff, beq_eq_false_iff_ne]
  left; right
  omega

theorem pkgLt_asymm_same_name {b c : Pkg} (h : pkgLt b c = true)
    (hn : b.name = c.name) : pkgLt c b = false := by
  simp only [pkgLt, hn, strLt_irrefl, Bool.false_or, Bool.and_eq_true,
    beq_iff_eq, decide_eq_true_eq] at h
  simp only [pkgLt, hn, strLt_irrefl, Bool.false_or, Bool.and_eq_false_iff]
  right
  simpa using by omega

theorem sumStats_incSign (s : Stats) :
    sumStats (incSign s) = sumStats s + 1 := by
  simp [sumStats, incSign]; omega

theorem sumStats_incDone (s : Stats) :
    sumStats (incDone s) = sumStats s + 1 := by
  simp [sumStats, incDone]; omega

theorem sumStats_incPush (s : Stats) :
    sumStats (incPush s) = sumStats s + 1 := by
  simp [sumStats, incPush]; omega

theorem sumStats_incBuild (s : Stats) :
    sumStats (incBuild s) = sumStats s + 1 := by
  simp [sumStats, incBuild]; omega

theorem sumStats_incDenied (s : Stats) :
    sumStats (incDenied s) = sumStats s + 1 := by
  simp [sumStats, incDenied]; omega

theorem sumStats_incMissing (s : Stats) :
    sumStats (incMissing s) = sumStats s + 1 := by
  simp [sumStats, incMissing]; omega

theorem sumStats_incGitOld (s : Stats) :
    sumStats (incGitOld s) = sumStats s + 1 := by
  simp [sumStats, incGitOld]; omega

theorem sumStats_incTagOld (s : Stats) :
    sumStats (incTagOld s) = sumStats s + 1 := by
  simp [sumStats, incTagOld]; omega

theorem sumStats_incError (s : Stats) :
    sumStats (incError s) = sumStats s + 1 := by
  simp [sumStats, incError]; omega

theorem scanLoop_sum (cpkg bpkg : Pkg) :
    ∀ (l : List Pkg) (st : Stats),
      sumStats st ≤ sumStats (scanLoop cpkg bpkg l st).2.1 ∧
        ((scanLoop cpkg bpkg l st).2.2 = true →
          sumStats st + 1 ≤ sumStats (scanLoop cpkg bpkg l st).2.1) := by
  intro l
  induction l with
  | nil =>
    intro st
    simp [scanLoop]
  | cons t rest ih =>
    intro st
    by_cases h1 : (t.name != cpkg.name) = true
    · simpa [scanLoop, h1] using ih st
    · by_cases h2 : pkgLt cpkg t = true
      · have hih := (ih (incGitOld st)).1
        rw [sumStats_incGitOld] at hih
        have hres : scanLoop cpkg bpkg (t :: rest) st =
            (mkRow cpkg (("OLDER than git: ") ++ pkgStr t) ("older") ::
                (scanLoop cpkg bpkg rest (incGitOld st)).1,
              (scanLoop cpkg bpkg rest (incGitOld st)).2.1, true) := by
          simp [scanLoop, h1, h2]
        rw [hres]
        dsimp only
        exact ⟨by omega, fun _ => by omega⟩
      · by_cases h3 : pkgEq cpkg t = true
        · by_cases h4 : pkgEq cpkg bpkg = true
          · simp [scanLoop, h1, h2, h3, h4, sumStats_incBuild]
          · simp [scanLoop, h1, h2, h3, h4, sumStats_incBuild]
        · by_cases h5 : pkgLt t cpkg = true
          · simp [scanLoop, h1, h2, h3, h5, sumStats_incPush]
          · have hih := (ih (incError st)).1
            rw [sumStats_incError] at hih
            have hres : scanLoop cpkg bpkg (t :: rest) st =
                (mkRow cpkg
                    (("Error: bpkg: ") ++ pkgStr bpkg ++ (" tpkg: ") ++
                      pkgStr t) ("error") ::
                    (scanLoop cpkg bpkg rest (incError st)).1,
                  (scanLoop cpkg bpkg rest (incError st)).2.1, true) := by
              simp [scanLoop, h1, h2, h3, h5]
            rw [hres]
            dsimp only
            exact ⟨by omega, fun _ => by omega⟩

theorem history_scan_sum (cpkg bpkg : Pkg) (tpkgs : List Pkg)
    (st : Stats) :
    sumStats st + 1 ≤ sumStats (history_scan cpkg bpkg tpkgs st).2 := by
  unfold history_scan
  have h := scanLoop_sum cpkg bpkg (sortPkgs tpkgs).reverse st
  by_cases hf : (scanLoop cpkg bpkg (sortPkgs tpkgs).reverse st).2.2 = true
  · simpa [hf] using h.2 hf
  · have hf2 :
        (scanLoop cpkg bpkg (sortPkgs tpkgs).reverse st).2.2 = false := by
      simpa using hf
    simp only [hf2, if_false, Bool.false_eq_true, sumStats_incPush]
    have := h.1
    omega

theorem doPkg_sum (deny : Pkg → Bool) (fetch : String → Option (List Pkg))
    (pushed : String → Option Pkg) (st : Stats) (cpkg : Pkg) :
    sumStats st + 1 ≤
      sumStats (doPkg deny fetch pushed false false st cpkg).st := by
  unfold doPkg
  cases hp : pushed cpkg.name with
  | none =>
    by_cases hd : deny cpkg = true
    · simp [hd, sumStats_incDenied]
    · have hd2 : deny cpkg = false := by simpa using hd
      simp only [hd2, Bool.false_eq_true, if_false]
      have := history_scan_sum cpkg cpkg
        (bpkg2git_tags fetch cpkg.name) (incMissing st)
      rw [sumStats_incMissing] at this
      omega
  | some bpkg =>
    by_cases h1 : pkgEq cpkg bpkg = true
    · by_cases h2 : bpkg.signed = true
      · simp [h1, h2, sumStats_incDone]
      · have h2f : bpkg.signed = false := by simpa using h2
        simp [h1, h2f, sumStats_incSign]
    · by_cases h3 : pkgLt cpkg bpkg = true
      · simp [h1, h3, sumStats_incTagOld]
      · by_cases h4 : pkgLt bpkg cpkg = true
        · by_cases hd : deny cpkg = true
          · simp [h1, h3, h4, hd, sumStats_incDenied]
          · have hd2 : deny cpkg = false := by simpa using hd
            simp only [h1, h3, h4, hd2, Bool.false_eq_true, if_false,
              if_true]
            exact history_scan_sum cpkg bpkg
              (bpkg2git_tags fetch bpkg.name) st
        · simp only [h1, h3, h4, Bool.false_eq_true, if_false]
          have := history_scan_sum cpkg bpkg
            (bpkg2git_tags fetch bpkg.name) (incError st)
          rw [sumStats_incError] at this
          omega

theorem insertPkg_length (x : Pkg) :
    ∀ l : List Pkg, (insertPkg x l).length = l.length + 1 := by
  intro l
  induction l with
  | nil => simp [insertPkg]
  | cons y ys ih =>
    by_cases h : pkgLt x y = true
    · simp [insertPkg, h]
    · simp [insertPkg, h, ih]

theorem sortPkgs_length (l : List Pkg) :
    (sortPkgs l).length = l.length := by
  induction l with
  | nil => simp [sortPkgs]
  | cons x xs ih =>
    simp only [sortPkgs, List.foldr_cons]
    rw [insertPkg_length]
    simpa [sortPkgs] using congrArg Nat.succ ih

theorem html_main_foldl_sum (deny : Pkg → Bool)
    (fetch : String → Option (List Pkg)) (pushed : String → Option Pkg) :
    ∀ (l : List Pkg) (acc : List Row × Stats),
      sumStats acc.2 + l.length ≤
        sumStats ((l.foldl
          (fun acc cpkg =>
            let o := doPkg deny fetch pushed false false acc.2 cpkg
            (acc.1 ++ o.rows, o.st))
          acc).2) := by
  intro l
  induction l with
  | nil => intro acc; simp
  | cons c cs ih =>
    intro acc
    simp only [List.foldl_cons, List.length_cons]
    have h1 := doPkg_sum deny fetch pushed acc.2 c
    have h2 := ih (acc.1 ++ (doPkg deny fetch pushed false false acc.2 c).rows,
      (doPkg deny fetch pushed false false acc.2 c).st)
    simp only at h2
    omega

/-- C1 (amended): with both report filters off, every manifest package
produces at least one aggregator increment, so the sum of the
aggregator's counts over all status tags is at least the number of
manifest packages; it is not in general equal to it. -/
theorem aggregator_total_at_least_manifest (deny : Pkg → Bool)
    (fetch : String → Option (List Pkg)) (cpkgs bpkgs : List Pkg) :
    cpkgs.length ≤
      sumStats (html_main deny fetch cpkgs bpkgs false false).2 := by
  unfold html_main
  have h := html_main_foldl_sum deny fetch (pushedOf bpkgs)
    (sortPkgs cpkgs) ([], stats0)
  simp only [stats0, sumStats] at h
  rw [sortPkgs_length] at h
  simpa [sumStats] using h

/-- C1 (counterexample): a manifest with one never-built, non-denylisted
package whose repository has no usable tags receives two aggregator
increments (missing, then push via the history scan), so the sum of the
aggregator's counts is 2, not the manifest size 1. -/
theorem aggregator_total_not_exact_counterexample :
    sumStats (html_main (fun _ => false) (fun _ => some [])
        [⟨("a"), 0, 0, false⟩] [] false false).2 ≠
      ([(⟨("a"), 0, 0, false⟩ : Pkg)] : List Pkg).length := by
  decide

/-- C2 (code bug, evaluated at the failing input): for a manifest
package whose same-name build-tag package is order-equal but
structurally distinct (neither less-than, greater-than, nor structurally
equal), the pass emits the error row and then still performs the
source-control history lookup: with an empty history it additionally
emits the `Missing from git` row and a push-bucket increment, instead of
stopping at the error as the code's own comment before the scan
(`cpkg > bpkg, or no bpkg`) and the claim state. -/
theorem error_case_still_scans_history_eval :
    (html_main (fun _ => false) (fun _ => some [])
          [⟨("a"), 0, 0, false⟩] [⟨("a"), 0, 1, true⟩] false false).1.map
        Row.lc = [("error"), ("missing")] ∧
      (html_main (fun _ => false) (fun _ => some [])
          [⟨("a"), 0, 0, false⟩] [⟨("a"), 0, 1, true⟩] false false).2.error
        = 1 ∧
      (html_main (fun _ => false) (fun _ => some [])
          [⟨("a"), 0, 0, false⟩] [⟨("a"), 0, 1, true⟩] false false).2.push
        = 1 := by
  refine ⟨?_, ?_, ?_⟩ <;> decide

/-- C3 (counterexample): a structurally identical, unsigned build-tag
package with `filter_signed` set and `filter_pushed` clear is not
counted under `need_signing` at all: it is displayed and counted as
`done`, so the filter changes the classification rather than merely
suppressing the row. -/
theorem filter_signed_reclassifies_counterexample :
    (html_main (fun _ => false) (fun _ => some [])
          [⟨("b"), 1, 0, false⟩] [⟨("b"), 1, 0, false⟩] false true).2.sign
        = 0 ∧
      (html_main (fun _ => false) (fun _ => some [])
          [⟨("b"), 1, 0, false⟩] [⟨("b"), 1, 0, false⟩] false true).2.done
        = 1 ∧
      (html_main (fun _ => false) (fun _ => some [])
          [⟨("b"), 1, 0, false⟩] [⟨("b"), 1, 0, false⟩] false true).1.map
        Row.lc = [("done")] := by
  refine ⟨?_, ?_, ?_⟩ <;> decide

/-- C3 (amended): for a manifest package whose build-tag package is
structurally identical and unsigned, the classification depends on the
filters: with `filter_signed` clear the status and increment are
`need_signing` regardless of `filter_pushed`; with `filter_signed` set
and `filter_pushed` clear the package is displayed and counted as
`done`; with both filters set it is suppressed entirely, with no row and
no aggregator increment. -/
theorem resolved_unsigned_filter_behavior (deny : Pkg → Bool)
    (fetch : String → Option (List Pkg)) (pushed : String → Option Pkg)
    (st : Stats) (cpkg bpkg : Pkg) (fp : Bool)
    (hp : pushed cpkg.name = some bpkg) (he : pkgEq cpkg bpkg = true)
    (hs : bpkg.signed = false) :
    doPkg deny fetch pushed fp false st cpkg =
        ⟨[mkRow cpkg ("built not signed") ("need_signing")], incSign st,
          false⟩ ∧
      doPkg deny fetch pushed false true st cpkg =
        ⟨[mkRow cpkg ("built and signed") ("done")], incDone st, false⟩ ∧
      doPkg deny fetch pushed true true st cpkg = ⟨[], st, false⟩ := by
  refine ⟨?_, ?_, ?_⟩ <;> simp [doPkg, hp, he, hs]

/-- C3 (witness): the amended filter behavior at a concrete identical
unsigned package. -/
theorem resolved_unsigned_filter_behavior_witness :
    doPkg (fun _ => false) (fun _ => some [])
        (pushedOf [⟨("b"), 1, 0, false⟩]) false true stats0
        ⟨("b"), 1, 0, false⟩ =
      ⟨[mkRow ⟨("b"), 1, 0, false⟩ ("built and signed") ("done")],
        incDone stats0, false⟩ :=
  (resolved_unsigned_filter_behavior (fun _ => false) (fun _ => some [])
      (pushedOf [⟨("b"), 1, 0, false⟩]) stats0 ⟨("b"), 1, 0, false⟩
      ⟨("b"), 1, 0, false⟩ false (by decide) (by decide) rfl).2.1

/-- C4 (counterexample): a never-built, non-denylisted manifest package
whose parsed history holds (newest first) a strictly newer entry, an
entry equal to the manifest version and an older entry is classified
`nobuild` (row `No BUILD`), preceded by one `older` row for the newer
entry; no row carries the `need_build` tag, refuting the claimed
`need_build` status. -/
theorem never_built_match_not_need_build_counterexample :
    (html_main (fun _ => false)
          (fun _ => some [⟨("c"), 3, 0, false⟩, ⟨("c"), 5, 0, false⟩,
            ⟨("c"), 7, 0, false⟩])
          [⟨("c"), 5, 0, false⟩] [] false false).1.map Row.lc =
        [("older"), ("nobuild")] ∧
      ¬ ("need_build") ∈
        (html_main (fun _ => false)
            (fun _ => some [⟨("c"), 3, 0, false⟩, ⟨("c"), 5, 0, false⟩,
              ⟨("c"), 7, 0, false⟩])
            [⟨("c"), 5, 0, false⟩] [] false false).1.map Row.lc := by
  refine ⟨?_, ?_⟩ <;> decide

/-- C4 (amended): for a never-built manifest package (`bpkg` is the
package itself) scanned against a descending history whose first
matching entry is strictly newer and whose second is structurally equal
to the manifest version, the scan emits exactly the `older` row and the
`No BUILD` row tagged `nobuild` (not `need_build`, not `missing`),
counts one git-old and one build increment, and consults no history
entry after the matching one (the result is the same for every tail). -/
theorem never_built_history_match_nobuild (cpkg t2 t1 : Pkg)
    (rest : List Pkg) (st : Stats) (hn2 : t2.name = cpkg.name)
    (hn1 : t1.name = cpkg.name) (hlt : pkgLt cpkg t2 = true)
    (heq : pkgEq cpkg t1 = true) :
    scanLoop cpkg cpkg (t2 :: t1 :: rest) st =
      ([mkRow cpkg (("OLDER than git: ") ++ pkgStr t2) ("older"),
        mkRow cpkg ("No BUILD") ("nobuild")],
        incBuild (incGitOld st), true) := by
  have hlt1 : pkgLt cpkg t1 = false := pkgEq_lt_false heq
  simp [scanLoop, hn2, hn1, hlt, hlt1, heq, pkgEq_refl]

/-- C4 (witness): the amended never-built scan behavior at the concrete
history of the counterexample. -/
theorem never_built_history_match_nobuild_witness :
    scanLoop ⟨("c"), 5, 0, false⟩ ⟨("c"), 5, 0, false⟩
        [⟨("c"), 7, 0, false⟩, ⟨("c"), 5, 0, false⟩, ⟨("c"), 3, 0, false⟩]
        stats0 =
      ([mkRow ⟨("c"), 5, 0, false⟩
          (("OLDER than git: ") ++ pkgStr ⟨("c"), 7, 0, false⟩) ("older"),
        mkRow ⟨("c"), 5, 0, false⟩ ("No BUILD") ("nobuild")],
        incBuild (incGitOld stats0), true) :=
  never_built_history_match_nobuild ⟨("c"), 5, 0, false⟩
    ⟨("c"), 7, 0, false⟩ ⟨("c"), 5, 0, false⟩ [⟨("c"), 3, 0, false⟩]
    stats0 rfl rfl (by decide) (by decide)

/-- C5 (confirmed): a denylisted manifest package whose version-order key
strictly exceeds its same-name build-tag package's is classified
`denied` with a single denied-bucket increment, and no source-control
fetch or history scan is performed for it, whatever the fetch oracle
would return. -/
theorem denylist_precedence_no_history (deny : Pkg → Bool)
    (fetch : String → Option (List Pkg)) (pushed : String → Option Pkg)
    (fp fs : Bool) (st : Stats) (cpkg bpkg : Pkg)
    (hp : pushed cpkg.name = some bpkg) (hn : bpkg.name = cpkg.name)
    (hd : deny cpkg = true) (hgt : pkgLt bpkg cpkg = true) :
    doPkg deny fetch pushed fp fs st cpkg =
      ⟨[mkRow cpkg (("autobuild denied: ") ++ pkgStr bpkg) ("denied")],
        incDenied st, false⟩ := by
  have h1 : pkgEq cpkg bpkg = false := pkgLt_same_name_eq_false hgt hn
  have h2 : pkgLt cpkg bpkg = false := pkgLt_asymm_same_name hgt hn
  simp [doPkg, hp, h1, h2, hgt, hd]

/-- C5 (witness): the denylist precedence at a concrete denylisted
package that is newer than its build. -/
theorem denylist_precedence_no_history_witness :
    doPkg (fun _ => true) (fun _ => some [⟨("d"), 9, 0, false⟩])
        (pushedOf [⟨("d"), 1, 0, true⟩]) false false stats0
        ⟨("d"), 2, 0, false⟩ =
      ⟨[mkRow ⟨("d"), 2, 0, false⟩
          (("autobuild denied: ") ++ pkgStr ⟨("d"), 1, 0, true⟩)
          ("denied")], incDenied stats0, false⟩ :=
  denylist_precedence_no_history (fun _ => true)
    (fun _ => some [⟨("d"), 9, 0, false⟩]) (pushedOf [⟨("d"), 1, 0, true⟩])
    false false stats0 ⟨("d"), 2, 0, false⟩ ⟨("d"), 1, 0, true⟩
    (by decide) rfl rfl (by decide)

/-- C7 (confirmed): a failed source-control fetch (the fetch oracle
returning the clone error) is treated exactly like an empty tag history:
`bpkg2git_tags` yields the same empty list as a successful clone of a
repository with no tags, and a never-built, non-denylisted package whose
fetch fails is classified `Missing from git` with tag `missing` (one
missing and one push increment), never `error`; the per-package result
is total, so the pass continues with the remaining packages. -/
theorem failed_fetch_missing_not_error (deny : Pkg → Bool)
    (fetch : String → Option (List Pkg)) (pushed : String → Option Pkg)
    (fp fs : Bool) (st : Stats) (cpkg : Pkg)
    (hp : pushed cpkg.name = none) (hd : deny cpkg = false)
    (hf : fetch cpkg.name = none) :
    bpkg2git_tags fetch cpkg.name =
        bpkg2git_tags (fun _ => some []) cpkg.name ∧
      doPkg deny fetch pushed fp fs st cpkg =
        ⟨[mkRow cpkg ("Missing from git") ("missing")],
          incPush (incMissing st), true⟩ := by
  constructor
  · simp [bpkg2git_tags, hf]
  · simp [doPkg, hp, hd, bpkg2git_tags, hf, history_scan, sortPkgs,
      scanLoop]

/-- C7 (witness): the failed-fetch classification at a concrete
never-built package. -/
theorem failed_fetch_missing_not_error_witness :
    doPkg (fun _ => false) (fun _ => none) (pushedOf []) false false
        stats0 ⟨("e"), 4, 0, false⟩ =
      ⟨[mkRow ⟨("e"), 4, 0, false⟩ ("Missing from git") ("missing")],
        incPush (incMissing stats0), true⟩ :=
  (failed_fetch_missing_not_error (fun _ => false) (fun _ => none)
      (pushedOf []) false false stats0 ⟨("e"), 4, 0, false⟩ rfl rfl
      rfl).2

/-- C6 (confirmed): the tag parser accepts a tag iff it starts with the
fixed import prefix for the target major version, the prefix-stripped
remainder with the percent-encoded tilde decoded contains no percent
sign, and the remainder then begins with the stream marker or the plain
marker; every accepted tag contributes exactly one parsed entry carrying
the corresponding stream flag, and every other tag is dropped silently
without affecting the remaining tags. -/
theorem tags2pkgs_accepts_iff (t : String) (rest : List String) :
    tags2pkgs (t :: rest) =
      if tagAccepted t = true then acceptedTPkg t :: tags2pkgs rest
      else tags2pkgs rest := by
  cases h1 : t.startsWith ("imports/c8") with
  | false =>
    have ha : tagAccepted t = false := by
      simp only [tagAccepted, h1, Bool.false_and]
    rw [if_neg (by simp [ha])]
    rw [tags2pkgs]
    simp only [h1, Bool.not_false, if_true]
  | true =>
    cases h2 :
        ((t.drop ("imports/c8").length).replace ("%7e") ("~")).contains
          '%' with
    | true =>
      have ha : tagAccepted t = false := by
        simp only [tagAccepted, h1, h2, Bool.true_and, Bool.not_true,
          Bool.false_and]
      rw [if_neg (by simp [ha])]
      rw [tags2pkgs]
      simp only [h1, Bool.not_true, Bool.false_eq_true, if_false, h2,
        if_true]
    | false =>
      cases h3 :
          ((t.drop ("imports/c8").length).replace ("%7e")
              ("~")).startsWith ("s/") with
      | true =>
        have ha : tagAccepted t = true := by
          simp only [tagAccepted, h1, h2, h3, Bool.true_and,
            Bool.not_false, Bool.true_or]
        rw [if_pos ha]
        rw [tags2pkgs]
        simp only [h1, Bool.not_true, Bool.false_eq_true, if_false, h2,
          h3, if_true, acceptedTPkg]
      | false =>
        cases h4 :
            ((t.drop ("imports/c8").length).replace ("%7e")
                ("~")).startsWith ("/") with
        | true =>
          have ha : tagAccepted t = true := by
            simp only [tagAccepted, h1, h2, h3, h4, Bool.true_and,
              Bool.not_false, Bool.false_or]
          rw [if_pos ha]
          rw [tags2pkgs]
          simp only [h1, Bool.not_true, Bool.false_eq_true, if_false,
            h2, h3, h4, if_true, acceptedTPkg]
        | false =>
          have ha : tagAccepted t = false := by
            simp only [tagAccepted, h1, h2, h3, h4, Bool.true_and,
              Bool.not_false, Bool.or_self]
          rw [if_neg (by simp [ha])]
          rw [tags2pkgs]
          simp only [h1, Bool.not_true, Bool.false_eq_true, if_false,
            h2, h3, h4]

/-- C9 (counterexample): the task-state NONE does not always leave the
terminal status as `need_build`: with no manual annotation and the
package auto-detected as a rebuild, the automatic-annotation step of
`_html_row` relabels it `need_build_manual`. -/
theorem need_build_none_manual_counterexample :
    html_row_lc ("NONE") ("") ("") true false false ("need_build") =
        ("need_build_manual") ∧
      ¬ html_row_lc ("NONE") ("") ("") true false false ("need_build") =
        ("need_build") := by
  refine ⟨?_, ?_⟩ <;> decide

/-- C9 (amended): whenever the incoming status tag is `need_build`, the
looked-up build-task state is mapped so that FREE, OPEN and ASSIGNED
yield `need_build_free`, `need_build_open` and `need_build_assigned`,
CLOSED, CANCELED and FAILED yield `need_build_closed`,
`need_build_canceled` and `need_build_failed`, and any unrecognized
state yields `need_build_unknown`, in every case regardless of
annotations; state NONE leaves the status as `need_build` when a manual
annotation exists or the package is not auto-detected as a rebuild, a
branch change or a module, and otherwise the automatic-annotation step
relabels it `need_build_manual`.  Any other incoming tag is returned
unchanged. -/
theorem need_build_task_state_refinement :
    (∀ bn cn r b m,
        html_row_lc ("FREE") bn cn r b m ("need_build") =
          ("need_build_free") ∧
        html_row_lc ("OPEN") bn cn r b m ("need_build") =
          ("need_build_open") ∧
        html_row_lc ("ASSIGNED") bn cn r b m ("need_build") =
          ("need_build_assigned") ∧
        html_row_lc ("CLOSED") bn cn r b m ("need_build") =
          ("need_build_closed") ∧
        html_row_lc ("CANCELED") bn cn r b m ("need_build") =
          ("need_build_canceled") ∧
        html_row_lc ("FAILED") bn cn r b m ("need_build") =
          ("need_build_failed")) ∧
      (∀ s bn cn r b m, ¬ s = ("NONE") → ¬ s = ("FREE") →
        ¬ s = ("OPEN") → ¬ s = ("CLOSED") → ¬ s = ("CANCELED") →
        ¬ s = ("ASSIGNED") → ¬ s = ("FAILED") →
        html_row_lc s bn cn r b m ("need_build") =
          ("need_build_unknown")) ∧
      (∀ bn cn r b m, ¬ bn = ("") →
        html_row_lc ("NONE") bn cn r b m ("need_build") =
          ("need_build")) ∧
      (∀ bn cn,
        html_row_lc ("NONE") bn cn false false false ("need_build") =
          ("need_build")) ∧
      (∀ bn cn r b m, pyOr (pyOr bn cn) ("") = ("") →
        (r = true ∨ b = true ∨ m = true) →
        html_row_lc ("NONE") bn cn r b m ("need_build") =
          ("need_build_manual")) ∧
      (∀ s bn cn r b m lc, ¬ lc = ("need_build") →
        html_row_lc s bn cn r b m lc = lc) := by
  refine ⟨?_, ?_, ?_, ?_, ?_, ?_⟩
  · intro bn cn r b m
    refine ⟨?_, ?_, ?_, ?_, ?_, ?_⟩ <;>
      · simp only [html_row_lc, task_state2lc]
        cases h : ((pyOr (pyOr bn cn) ("")) == ("")) <;>
          cases r <;> cases b <;> cases m <;> simp [h]
  · intro s bn cn r b m h1 h2 h3 h4 h5 h6 h7
    have e1 : (s == ("NONE")) = false := beq_eq_false_iff_ne.mpr h1
    have e2 : (s == ("FREE")) = false := beq_eq_false_iff_ne.mpr h2
    have e3 : (s == ("OPEN")) = false := beq_eq_false_iff_ne.mpr h3
    have e4 : (s == ("CLOSED")) = false := beq_eq_false_iff_ne.mpr h4
    have e5 : (s == ("CANCELED")) = false := beq_eq_false_iff_ne.mpr h5
    have e6 : (s == ("ASSIGNED")) = false := beq_eq_false_iff_ne.mpr h6
    have e7 : (s == ("FAILED")) = false := beq_eq_false_iff_ne.mpr h7
    simp only [html_row_lc, task_state2lc, e1, e2, e3, e4, e5, e6, e7]
    cases h : ((pyOr (pyOr bn cn) ("")) == ("")) <;>
      cases r <;> cases b <;> cases m <;> simp [h]
  · intro bn cn r b m hbn
    have e : (bn == ("")) = false := beq_eq_false_iff_ne.mpr hbn
    simp [html_row_lc, task_state2lc, pyOr, e]
  · intro bn cn
    simp only [html_row_lc, task_state2lc]
    cases h : ((pyOr (pyOr bn cn) ("")) == ("")) <;> simp [h]
  · intro bn cn r b m hnote hflag
    simp only [html_row_lc, task_state2lc, hnote]
    cases r <;> cases b <;> cases m <;> simp_all
  · intro s bn cn r b m lc hlc
    have e : (lc == ("need_build")) = false := beq_eq_false_iff_ne.mpr hlc
    simp [html_row_lc, e]

/-- C9 (witness): the amended refinement at concrete inputs: an
unrecognized state maps to `need_build_unknown`, and state NONE with a
manual annotation leaves `need_build`. -/
theorem need_build_task_state_refinement_witness :
    html_row_lc ("BUILDING") ("") ("") true false false ("need_build") =
        ("need_build_unknown") ∧
      html_row_lc ("NONE") ("x") ("") true false false ("need_build") =
        ("need_build") :=
  ⟨need_build_task_state_refinement.2.1 ("BUILDING") ("") ("") true false
      false (by decide) (by decide) (by decide) (by decide) (by decide)
      (by decide) (by decide),
    need_build_task_state_refinement.2.2.1 ("x") ("") true false false
      (by decide)⟩

/-- The per-package effect of the base branch of `koji_archpkgs2sigs`:
keep the oracle's non-empty keys for the package's rpm id and normalize
them into the `signed` field. -/
def archNorm (sig : Nat → List String) (p : ArchPkg) : ArchPkg :=
  { p with signed :=
      pySignedOfKeys ((sig p.rpm_id).filter (fun k => !(k == ("")))) }

/-- The expansion of one build package into its arch packages performed
by the base branch of `koji_pkgs2archsigs` (lines 79-86). -/
def expandBuild (listRPMs : Nat → List Rpm) (b : BuildPkg) :
    List ArchPkg :=
  (listRPMs b.build_id).map (fun r =>
    ⟨r.nvr, r.epoch, r.arch, r.id, b.build_id, PySigned.str ("")⟩)

/-- The normalized-shape invariant of a `signed` value: a string, or a
list of at least two keys. -/
def signedShapeOK : PySigned → Bool
  | .str _ => true
  | .list l => decide (2 ≤ l.length)

theorem pySignedOfKeys_nil : pySignedOfKeys [] = PySigned.str ("") := rfl

theorem pySignedOfKeys_one (k : String) :
    pySignedOfKeys [k] = PySigned.str k := rfl

theorem pySignedOfKeys_many (k1 k2 : String) (ks : List String) :
    pySignedOfKeys (k1 :: k2 :: ks) = PySigned.list (k1 :: k2 :: ks) := by
  simp [pySignedOfKeys, pyLen]

theorem signedShapeOK_pySignedOfKeys (keys : List String) :
    signedShapeOK (pySignedOfKeys keys) = true := by
  match keys with
  | [] => rfl
  | [k] => rfl
  | k1 :: k2 :: ks =>
    rw [pySignedOfKeys_many]
    simp [signedShapeOK]

theorem koji_archpkgs2sigs_fst (sig : Nat → List String) :
    ∀ (n : Nat) (pkgs : List ArchPkg), pkgs.length ≤ n →
      (koji_archpkgs2sigs sig pkgs).1 = pkgs.map (archNorm sig) := by
  intro n
  induction n with
  | zero =>
    intro pkgs hlen
    have h0 : pkgs = [] := List.eq_nil_of_length_eq_zero (by omega)
    subst h0
    rw [koji_archpkgs2sigs]
    simp [koji_max_query, archNorm]
  | succ n ih =>
    intro pkgs hlen
    rw [koji_archpkgs2sigs]
    by_cases h : pkgs.length > koji_max_query
    · rw [if_pos h]
      dsimp only
      have hch : ∀ c ∈ chunkList koji_max_query pkgs,
          (koji_archpkgs2sigs sig c).1 = c.map (archNorm sig) := by
        intro c hc
        apply ih
        have h1 : c.length ≤ koji_max_query :=
          chunkList_length_le (by simp [koji_max_query]) hc
        simp only [koji_max_query] at h1 h
        omega
      have he : ((chunkList koji_max_query pkgs).attach.map
            (fun c => koji_archpkgs2sigs sig c.1)).map Prod.fst =
          (chunkList koji_max_query pkgs).map
            (fun c => c.map (archNorm sig)) := by
        rw [List.map_map, ← List.attach_map_val
          (chunkList koji_max_query pkgs)
          (fun c => c.map (archNorm sig))]
        apply List.map_congr_left
        intro c _
        simp only [Function.comp_apply]
        exact hch c.1 c.2
      rw [he, ← List.map_flatten, chunkList_flatten]
    · rw [if_neg h]
      simp [archNorm]

theorem koji_archpkgs2sigs_batches (sig : Nat → List String) :
    ∀ (n : Nat) (pkgs : List ArchPkg), pkgs.length ≤ n →
      ∀ bsize ∈ (koji_archpkgs2sigs sig pkgs).2,
        bsize ≤ koji_max_query := by
  intro n
  induction n with
  | zero =>
    intro pkgs hlen bsize hb
    have h0 : pkgs = [] := List.eq_nil_of_length_eq_zero (by omega)
    subst h0
    rw [koji_archpkgs2sigs] at hb
    simp [koji_max_query] at hb ⊢
    omega
  | succ n ih =>
    intro pkgs hlen bsize hb
    rw [koji_archpkgs2sigs] at hb
    by_cases h : pkgs.length > koji_max_query
    · rw [if_pos h] at hb
      simp only [List.map_map, List.mem_flatten, List.mem_map,
        List.mem_attach, true_and, Subtype.exists] at hb
      obtain ⟨lb, ⟨c, hc, hlb⟩, hmem⟩ := hb
      have h1 : c.length ≤ koji_max_query :=
        chunkList_length_le (by simp [koji_max_query]) hc
      have h2 : c.length ≤ n := by
        simp only [koji_max_query] at h1 h
        omega
      have := ih c h2 bsize
      apply this
      rw [← hlb] at hmem
      simpa using hmem
    · rw [if_neg h] at hb
      simp only [List.mem_singleton] at hb
      omega

theorem flatMap_flatten_eq {α β : Type} (L : List (List α))
    (f : α → List β) :
    (L.map (fun c => c.flatMap f)).flatten = L.flatten.flatMap f := by
  induction L with
  | nil => simp
  | cons c cs ih => simp [ih]

theorem koji_pkgs2archsigs_fst (listRPMs : Nat → List Rpm)
    (sig : Nat → List String) :
    ∀ (n : Nat) (pkgs : List BuildPkg), pkgs.length ≤ n →
      (koji_pkgs2archsigs listRPMs sig pkgs).1 =
        (pkgs.flatMap (expandBuild listRPMs)).map (archNorm sig) := by
  intro n
  induction n with
  | zero =>
    intro pkgs hlen
    have h0 : pkgs = [] := List.eq_nil_of_length_eq_zero (by omega)
    subst h0
    rw [koji_pkgs2archsigs]
    rw [if_neg (by simp [koji_max_query])]
    show (koji_archpkgs2sigs sig
        (([] : List BuildPkg).flatMap (expandBuild listRPMs))).1 =
      (([] : List BuildPkg).flatMap (expandBuild listRPMs)).map
        (archNorm sig)
    exact koji_archpkgs2sigs_fst sig _ _ le_rfl
  | succ n ih =>
    intro pkgs hlen
    rw [koji_pkgs2archsigs]
    by_cases h : pkgs.length > koji_max_query
    · rw [if_pos h]
      dsimp only
      have hch : ∀ c ∈ chunkList koji_max_query pkgs,
          (koji_pkgs2archsigs listRPMs sig c).1 =
            (c.flatMap (expandBuild listRPMs)).map (archNorm sig) := by
        intro c hc
        apply ih
        have h1 : c.length ≤ koji_max_query :=
          chunkList_length_le (by simp [koji_max_query]) hc
        simp only [koji_max_query] at h1 h
        omega
      have he : ((chunkList koji_max_query pkgs).attach.map
            (fun c => koji_pkgs2archsigs listRPMs sig c.1)).map Prod.fst =
          (chunkList koji_max_query pkgs).map
            (fun c =>
              (c.flatMap (expandBuild listRPMs)).map (archNorm sig)) := by
        rw [List.map_map, ← List.attach_map_val
          (chunkList koji_max_query pkgs)
          (fun c => (c.flatMap (expandBuild listRPMs)).map (archNorm sig))]
        apply List.map_congr_left
        intro c _
        simp only [Function.comp_apply]
        exact hch c.1 c.2
      rw [he]
      have hmaps :
          (chunkList koji_max_query pkgs).map
              (fun c =>
                (c.flatMap (expandBuild listRPMs)).map (archNorm sig)) =
            ((chunkList koji_max_query pkgs).map
                (fun c => c.flatMap (expandBuild listRPMs))).map
              (List.map (archNorm sig)) := by
        rw [List.map_map]
        rfl
      rw [hmaps, ← List.map_flatten, flatMap_flatten_eq, chunkList_flatten]
    · rw [if_neg h]
      show (koji_archpkgs2sigs sig
          (pkgs.flatMap (expandBuild listRPMs))).1 =
        (pkgs.flatMap (expandBuild listRPMs)).map (archNorm sig)
      exact koji_archpkgs2sigs_fst sig _ _ le_rfl

theorem koji_pkgs2archsigs_batches (listRPMs : Nat → List Rpm)
    (sig : Nat → List String) :
    ∀ (n : Nat) (pkgs : List BuildPkg), pkgs.length ≤ n →
      ∀ bsize ∈ (koji_pkgs2archsigs listRPMs sig pkgs).2,
        bsize ≤ koji_max_query := by
  intro n
  induction n with
  | zero =>
    intro pkgs hlen bsize hb
    have h0 : pkgs = [] := List.eq_nil_of_length_eq_zero (by omega)
    subst h0
    rw [koji_pkgs2archsigs] at hb
    rw [if_neg (by simp [koji_max_query])] at hb
    have hb2 : bsize ∈ ([] : List BuildPkg).length ::
        (koji_archpkgs2sigs sig
          (([] : List BuildPkg).flatMap (expandBuild listRPMs))).2 := hb
    rcases List.mem_cons.mp hb2 with hb3 | hb3
    · simp only [List.length_nil] at hb3
      subst hb3
      simp [koji_max_query]
    · exact koji_archpkgs2sigs_batches sig _ _ le_rfl bsize hb3
  | succ n ih =>
    intro pkgs hlen bsize hb
    rw [koji_pkgs2archsigs] at hb
    by_cases h : pkgs.length > koji_max_query
    · rw [if_pos h] at hb
      simp only [List.map_map, List.mem_flatten, List.mem_map,
        List.mem_attach, true_and, Subtype.exists] at hb
      obtain ⟨lb, ⟨c, hc, hlb⟩, hmem⟩ := hb
      have h1 : c.length ≤ koji_max_query :=
        chunkList_length_le (by simp [koji_max_query]) hc
      have h2 : c.length ≤ n := by
        simp only [koji_max_query] at h1 h
        omega
      apply ih c h2 bsize
      rw [← hlb] at hmem
      simpa using hmem
    · rw [if_neg h] at hb
      have hb2 : bsize ∈ pkgs.length ::
          (koji_archpkgs2sigs sig
            (pkgs.flatMap (expandBuild listRPMs))).2 := hb
      rcases List.mem_cons.mp hb2 with hb3 | hb3
      · subst hb3
        omega
      · exact koji_archpkgs2sigs_batches sig _ _ le_rfl bsize hb3

/-- C8 (confirmed): batched remote lookups are semantically transparent
and bounded: `koji_pkgs2archsigs` (and `koji_archpkgs2sigs`) produces
the same result as applying itself to the consecutive chunks of at most
2000 packages and concatenating, and every multicall batch it issues
covers at most 2000 packages. -/
theorem koji_batching_transparent_and_bounded (listO : Nat → List Rpm)
    (sig : Nat → List String) (pkgs : List BuildPkg)
    (apkgs : List ArchPkg) :
    (koji_pkgs2archsigs listO sig pkgs).1 =
        ((chunkList koji_max_query pkgs).map
          (fun c => (koji_pkgs2archsigs listO sig c).1)).flatten ∧
      (koji_archpkgs2sigs sig apkgs).1 =
        ((chunkList koji_max_query apkgs).map
          (fun c => (koji_archpkgs2sigs sig c).1)).flatten ∧
      (∀ bsize ∈ (koji_pkgs2archsigs listO sig pkgs).2,
        bsize ≤ koji_max_query) ∧
      (∀ bsize ∈ (koji_archpkgs2sigs sig apkgs).2,
        bsize ≤ koji_max_query) := by
  refine ⟨?_, ?_, ?_, ?_⟩
  · rw [koji_pkgs2archsigs_fst listO sig pkgs.length pkgs le_rfl]
    have hc : (chunkList koji_max_query pkgs).map
          (fun c => (koji_pkgs2archsigs listO sig c).1) =
        (chunkList koji_max_query pkgs).map
          (fun c =>
            (c.flatMap (expandBuild listO)).map (archNorm sig)) := by
      apply List.map_congr_left
      intro c _
      exact koji_pkgs2archsigs_fst listO sig c.length c le_rfl
    rw [hc]
    have hmaps : (chunkList koji_max_query pkgs).map
          (fun c =>
            (c.flatMap (expandBuild listO)).map (archNorm sig)) =
        ((chunkList koji_max_query pkgs).map
            (fun c => c.flatMap (expandBuild listO))).map
          (List.map (archNorm sig)) := by
      rw [List.map_map]
      rfl
    rw [hmaps, ← List.map_flatten, flatMap_flatten_eq, chunkList_flatten]
  · rw [koji_archpkgs2sigs_fst sig apkgs.length apkgs le_rfl]
    have hc : (chunkList koji_max_query apkgs).map
          (fun c => (koji_archpkgs2sigs sig c).1) =
        (chunkList koji_max_query apkgs).map
          (List.map (archNorm sig)) := by
      apply List.map_congr_left
      intro c _
      exact koji_archpkgs2sigs_fst sig c.length c le_rfl
    rw [hc, ← List.map_flatten, chunkList_flatten]
  · exact koji_pkgs2archsigs_batches listO sig pkgs.length pkgs le_rfl
  · exact koji_archpkgs2sigs_batches sig apkgs.length apkgs le_rfl

/-- C8 (witness): the batch bound applied at a concrete one-package
call, whose first multicall batch has size 1. -/
theorem koji_batching_transparent_and_bounded_witness :
    (1 : Nat) ≤ koji_max_query :=
  (koji_batching_transparent_and_bounded (fun _ => []) (fun _ => [])
      [⟨0⟩] []).2.2.1 1 (by
    rw [koji_pkgs2archsigs]
    rw [if_neg (by simp [koji_max_query])]
    exact List.mem_cons_self _ _)

/-- C10 (confirmed): after `koji_archpkgs2sigs` processes a package
list, every package's `signed` field is the normalization of the
non-empty keys returned for its rpm id: the empty string when there are
none, the single key itself (a string, not a list) when there is exactly
one, and the key list only when there are at least two -- so `signed` is
never an empty or one-element list. -/
theorem signed_normal_shape (sig : Nat → List String)
    (pkgs : List ArchPkg) (p : ArchPkg)
    (hp : p ∈ (koji_archpkgs2sigs sig pkgs).1) :
    p.signed =
        pySignedOfKeys ((sig p.rpm_id).filter (fun k => !(k == ("")))) ∧
      signedShapeOK p.signed = true ∧
      ((sig p.rpm_id).filter (fun k => !(k == (""))) = [] →
        p.signed = PySigned.str ("")) ∧
      (∀ k, (sig p.rpm_id).filter (fun k2 => !(k2 == (""))) = [k] →
        p.signed = PySigned.str k) ∧
      (2 ≤ ((sig p.rpm_id).filter (fun k => !(k == ("")))).length →
        p.signed =
          PySigned.list ((sig p.rpm_id).filter (fun k => !(k == (""))))) := by
  rw [koji_archpkgs2sigs_fst sig pkgs.length pkgs le_rfl] at hp
  obtain ⟨q, hq, rfl⟩ := List.mem_map.mp hp
  have hsig : (archNorm sig q).signed =
      pySignedOfKeys
        ((sig (archNorm sig q).rpm_id).filter (fun k => !(k == ("")))) :=
    rfl
  rw [hsig]
  generalize (sig (archNorm sig q).rpm_id).filter (fun k => !(k == ("")))
    = keys
  refine ⟨rfl, signedShapeOK_pySignedOfKeys keys, ?_, ?_, ?_⟩
  · intro hk
    rw [hk, pySignedOfKeys_nil]
  · intro k hk
    rw [hk, pySignedOfKeys_one]
  · intro h2
    cases keys with
    | nil => simp at h2
    | cons k1 tl =>
      cases tl with
      | nil => simp at h2
      | cons k2 ks => exact pySignedOfKeys_many k1 k2 ks

/-- C10 (witness): the shape invariant applied at a concrete package
processed with no returned signing keys. -/
theorem signed_normal_shape_witness :
    signedShapeOK (PySigned.str ("")) = true :=
  (signed_normal_shape (fun _ => [])
      [⟨("n"), none, ("a"), 3, 0, PySigned.str ("")⟩]
      ⟨("n"), none, ("a"), 3, 0, PySigned.str ("")⟩ (by
    rw [koji_archpkgs2sigs]
    rw [if_neg (by simp [koji_max_query])]
    exact List.mem_singleton.mpr rfl)).2.1

end Sync2Html
